import Mathlib

/-!
Shallow embedding of the interaction orchestrator of the Pi assistant
(`src/main.py`, class `PiAssistant`) and of the LLM client boundary
(`src/llm.py`, class `LLMClient`).

The orchestrator state is the tuple of fields the Python object mutates:
`self.state`, `self.voice.wake_word_paused` (the wake-word gate),
`self.conversation`, the two `queue.Queue` objects (`speech_queue`,
`response_queue`, modelled as FIFO lists), the multiset of background
threads currently alive (modelled by their kind), and a counter of
`self.tts.stop()` calls.  Background-thread completions are modelled as
events carrying the outcome of the single external-collaborator call the
thread makes; the body of each thread (`record_and_transcribe`,
`get_response`, `speak`) is translated into the list of messages it posts
for that outcome.  Rendering (`self.face`) is out of scope, as are the
audio engines behind `listen_and_transcribe` / `tts.speak`.
-/

namespace PiAssistant

/-- Role of a conversation turn (the `"role"` field of the dicts appended
to `self.conversation` in `src/main.py`). -/
inductive Role
  | user
  | assistant
deriving DecidableEq

/-- One entry of `self.conversation`: `{"role": ..., "content": ...}`. -/
structure Turn where
  role : Role
  content : String
deriving DecidableEq

/-- `AssistantState` from `src/main.py` lines 25-30. -/
inductive AssistantState
  | idle
  | listening
  | thinking
  | speaking
deriving DecidableEq

/-- Kind of a background thread spawned by the orchestrator:
`record_and_transcribe` (line 110), `get_response` (line 134),
`speak` (line 156). -/
inductive TaskKind
  | recording
  | reply
  | speech
deriving DecidableEq

/-- The mutable state of the `PiAssistant` object (plus a counter of
`tts.stop()` calls, for the cancellation claims). -/
structure Sys where
  state : AssistantState
  gate : Bool
  conversation : List Turn
  speechQ : List (Option String)
  respQ : List String
  tasks : List TaskKind
  ttsStops : Nat
deriving DecidableEq

/-- The sentinel string the `speak` task posts (`src/main.py` line 163). -/
def speechDoneSentinel : String := "__SPEECH_DONE__"

/-- The apology the `get_response` task posts when `llm.chat` raises
(`src/main.py` line 140). -/
def taskApology : String := "Sorry, I had trouble thinking about that."

/-- `PiAssistant.set_state` (lines 64-69): assign the state and, when the
new state is `IDLE`, clear `voice.wake_word_paused`.  The
`face.set_emotion_for_state` call is presentation-only and not modelled. -/
def set_state (σ : Sys) (s : AssistantState) : Sys :=
  { σ with state := s, gate := if s = AssistantState.idle then false else σ.gate }

/-- `PiAssistant.start_listening` (lines 102-120): no-op unless `IDLE`;
otherwise set the gate, move to `LISTENING` and spawn the recording
thread. -/
def start_listening (σ : Sys) : Sys :=
  if σ.state ≠ AssistantState.idle then σ
  else set_state { σ with gate := true, tasks := TaskKind.recording :: σ.tasks }
    AssistantState.listening

/-- `PiAssistant.cancel_speech` (lines 122-125): `tts.stop()` then
`set_state(IDLE)`. -/
def cancel_speech (σ : Sys) : Sys :=
  set_state { σ with ttsStops := σ.ttsStops + 1 } AssistantState.idle

/-- `PiAssistant.process_speech` (lines 127-143): `set_state(THINKING)`,
append the user turn, spawn the reply thread. -/
def process_speech (σ : Sys) (text : String) : Sys :=
  let σ' := set_state σ AssistantState.thinking
  { σ' with conversation := σ'.conversation ++ [⟨Role.user, text⟩],
            tasks := TaskKind.reply :: σ'.tasks }

/-- The append-then-trim history step of `PiAssistant.speak_response`
(lines 149-154): append the turn, then if the length exceeds 20 keep the
last 20 entries (`self.conversation[-20:]`). -/
def appendTrim (conv : List Turn) (t : Turn) : List Turn :=
  if (conv ++ [t]).length > 20 then (conv ++ [t]).drop ((conv ++ [t]).length - 20)
  else conv ++ [t]

/-- `PiAssistant.speak_response` (lines 145-166): `set_state(SPEAKING)`,
append the assistant turn, trim, spawn the speech thread. -/
def speak_response (σ : Sys) (text : String) : Sys :=
  let σ' := set_state σ AssistantState.speaking
  { σ' with conversation := appendTrim σ'.conversation ⟨Role.assistant, text⟩,
            tasks := TaskKind.speech :: σ'.tasks }

/-- Handling of one message popped from `speech_queue` in
`PiAssistant.update` (lines 176-184): `if text: process_speech(text)
else: set_state(IDLE)`.  Python truthiness: `None` and `""` are falsy. -/
def dispatchSpeechMsg (σ : Sys) (m : Option String) : Sys :=
  match m with
  | some t => if t = "" then set_state σ AssistantState.idle else process_speech σ t
  | none => set_state σ AssistantState.idle

/-- First half of `PiAssistant.update`: one `get_nowait` on
`speech_queue`, `queue.Empty` is swallowed. -/
def drainSpeech (σ : Sys) : Sys :=
  match σ.speechQ with
  | [] => σ
  | m :: rest => dispatchSpeechMsg { σ with speechQ := rest } m

/-- Handling of one message popped from `response_queue` in
`PiAssistant.update` (lines 186-195): the `__SPEECH_DONE__` sentinel sets
`IDLE`; otherwise the message is spoken only when the current state is
`THINKING`, and is silently dropped in any other state. -/
def dispatchResponseMsg (σ : Sys) (r : String) : Sys :=
  if r = speechDoneSentinel then set_state σ AssistantState.idle
  else if σ.state = AssistantState.thinking then speak_response σ r
  else σ

/-- Second half of `PiAssistant.update`: one `get_nowait` on
`response_queue`, `queue.Empty` is swallowed. -/
def drainResponse (σ : Sys) : Sys :=
  match σ.respQ with
  | [] => σ
  | r :: rest => dispatchResponseMsg { σ with respQ := rest } r

/-- `PiAssistant.update` (lines 173-195): drain at most one message from
each queue, transcript side first; the second half reads `self.state`
after the first half may have changed it. -/
def update (σ : Sys) : Sys := drainResponse (drainSpeech σ)

/-- Outcome of the single `self.voice.listen_and_transcribe()` call made
by the recording thread: it either returned (a transcript or `None`) or
raised. -/
inductive RecResult
  | returned (t : Option String)
  | raised
deriving DecidableEq

/-- Messages posted by `record_and_transcribe` (lines 110-117) for a given
collaborator outcome: a truthy transcript is posted as is; a falsy result
(`None` or `""`) posts nothing at all (only the `except` path posts
`None`). -/
def recPost : RecResult → List (Option String)
  | RecResult.returned (some t) => if t = "" then [] else [some t]
  | RecResult.returned none => []
  | RecResult.raised => [none]

/-- Outcome of the single `self.llm.chat(...)` call made by the reply
thread. -/
inductive ReplyResult
  | returned (s : String)
  | raised
deriving DecidableEq

/-- Messages posted by `get_response` (lines 134-140): the returned reply,
or the task-local apology string on an exception. -/
def replyPost : ReplyResult → List String
  | ReplyResult.returned s => [s]
  | ReplyResult.raised => [taskApology]

/-- Messages posted by `speak` (lines 156-163): always exactly the
sentinel, via `finally`. -/
def speechPost : List String := [speechDoneSentinel]

/-- External stimuli of the orchestrator: the user-facing handlers
(`start_listening` from tap/key/wake-word, `cancel_speech` from
tap-while-speaking, guarded by `_handle_interaction`/`_handle_touch`),
one tick of `update`, and completion of one background thread of each
kind with a given collaborator outcome. -/
inductive Event
  | start
  | cancel
  | poll
  | recDone (r : RecResult)
  | replyDone (r : ReplyResult)
  | speechDone
deriving DecidableEq

/-- One step of the whole system.  A completion event consumes one alive
thread of its kind (a no-op when none is alive) and appends that thread's
posted messages to its queue. -/
def step (σ : Sys) : Event → Sys
  | Event.start => start_listening σ
  | Event.cancel => if σ.state = AssistantState.speaking then cancel_speech σ else σ
  | Event.poll => update σ
  | Event.recDone r =>
      if σ.tasks.contains TaskKind.recording then
        { σ with tasks := σ.tasks.erase TaskKind.recording,
                 speechQ := σ.speechQ ++ recPost r }
      else σ
  | Event.replyDone r =>
      if σ.tasks.contains TaskKind.reply then
        { σ with tasks := σ.tasks.erase TaskKind.reply,
                 respQ := σ.respQ ++ replyPost r }
      else σ
  | Event.speechDone =>
      if σ.tasks.contains TaskKind.speech then
        { σ with tasks := σ.tasks.erase TaskKind.speech,
                 respQ := σ.respQ ++ speechPost }
      else σ

/-- The state of a freshly constructed `PiAssistant` (lines 53-62). -/
def init : Sys :=
  { state := AssistantState.idle, gate := false, conversation := [],
    speechQ := [], respQ := [], tasks := [], ttsStops := 0 }

/-- Run a sequence of events. -/
def run (σ : Sys) (es : List Event) : Sys := es.foldl step σ

/-!
Model of `LLMClient` (`src/llm.py`).  The HTTP exchange performed by
`_chat_sync` is abstracted by its observable outcome: either
`requests.post` / `response.json()` raised, or a response with a status
code and an extracted `message.content` string came back.  The
`random.choice` calls of `_mock_response` are modelled by an index
supplied by the environment, and `datetime.now().strftime(...)` by a
string supplied by the environment.
-/

/-- Outcome of the HTTP request made by `LLMClient._chat_sync`
(`src/llm.py` lines 87-110). -/
inductive HttpOutcome
  | ok (status : Nat) (content : String)
  | raised
deriving DecidableEq

/-- `LLMClient._chat_sync`: on status 200 return the stripped content,
otherwise raise (`RuntimeError`); a raise inside `requests.post` also
propagates. -/
def chat_sync (o : HttpOutcome) : Except Unit String :=
  match o with
  | HttpOutcome.ok status content =>
      if status = 200 then Except.ok content.trim else Except.error ()
  | HttpOutcome.raised => Except.error ()

/-- The fallback sentence returned by `LLMClient.chat` when the request
raises (`src/llm.py` line 85). -/
def chatFallback : String := "I\x27m having trouble thinking right now. Could you try again?"

/-- Python `needle in hay` for a non-empty needle. -/
def strContains (hay needle : String) : Bool := (hay.splitOn needle).length > 1

/-- `random.choice(l)`, with the random draw supplied as an index. -/
def pickFrom (l : List String) (pick : Nat) : String := l.getD (pick % l.length) ""

/-- The three greeting replies of `_mock_response`. -/
def mockHello : List String :=
  ["Hello there! I\x27m Max, your friendly AI assistant. How can I help you today?",
   "Hi! Great to see you! What would you like to talk about?",
   "Hey! I\x27m here and ready to help!"]

/-- The three joke replies of `_mock_response`. -/
def mockJoke : List String :=
  ["Why do programmers prefer dark mode? Because light attracts bugs!",
   "I would tell you a UDP joke, but you might not get it.",
   "There are only 10 types of people: those who understand binary and those who don\x27t!"]

/-- The three well-being replies of `_mock_response`. -/
def mockHowAreYou : List String :=
  ["I\x27m doing great! My circuits are humming nicely. How are you?",
   "Wonderful! Just sitting here, thinking at 30 frames per second. And you?",
   "Fantastic! Ready to help with whatever you need!"]

/-- The three default replies of `_mock_response`. -/
def mockDefault : List String :=
  ["That\x27s an interesting question! I\x27m running in demo mode right now, so my answers are limited. Start Ollama to unlock my full potential!",
   "I\x27m in demo mode without Ollama. Once you start it, I\x27ll be much smarter!",
   "Hmm, I\x27d need Ollama running to give you a proper answer. For now, I\x27m just doing my best!"]

/-- `LLMClient._mock_response` (`src/llm.py` lines 142-180): pattern-match
on the lower-cased content of the last message. -/
def mock_response (messages : List Turn) (pick : Nat) (timeStr : String) : String :=
  let last :=
    match messages.getLast? with
    | some m => m.content.toLower
    | none => ""
  if strContains last "hello" || strContains last "hi" then pickFrom mockHello pick
  else if strContains last "weather" then
    "I\x27d love to tell you about the weather, but I\x27m running locally and don\x27t have internet access. Maybe check your phone?"
  else if strContains last "joke" then pickFrom mockJoke pick
  else if strContains last "time" then
    "It\x27s currently " ++ timeStr ++ ". Time flies when you\x27re having fun!"
  else if strContains last "name" then
    "I\x27m Max! Your personal AI assistant living right here on this device."
  else if strContains last "how are you" then pickFrom mockHowAreYou pick
  else pickFrom mockDefault pick

/-- `LLMClient.chat` at the orchestrator boundary (`stream=False`,
`src/llm.py` lines 59-85): mock answer when Ollama is unavailable,
otherwise `_chat_sync` with every exception converted into the fixed
fallback sentence.  The result is `Except.error` only if an exception
would propagate to the caller. -/
def chat (available : Bool) (messages : List Turn) (o : HttpOutcome)
    (pick : Nat) (timeStr : String) : Except Unit String :=
  if available = false then Except.ok (mock_response messages pick timeStr)
  else
    match chat_sync o with
    | Except.ok s => Except.ok s
    | Except.error _ => Except.ok chatFallback

/-- What the `get_response` thread posts, as a function of what
`llm.chat` did (`src/main.py` lines 134-140). -/
def get_response_post (r : Except Unit String) : String :=
  match r with
  | Except.ok s => s
  | Except.error _ => taskApology

/-!
Concrete traces used as counterexamples.  Each trace is a run of the
system from the freshly constructed object, with background-thread
completions interleaved at points where a thread of that kind is alive.
-/

/-- One full turn, cancel during `SPEAKING`, restart, drain the stale
`__SPEECH_DONE__` (which forces `IDLE` while the new recording thread is
alive), then let that thread post its transcript. -/
def gateTrace : List Event :=
  [Event.start, Event.recDone (RecResult.returned (some "a")), Event.poll,
   Event.replyDone (ReplyResult.returned "r1"), Event.poll, Event.cancel, Event.speechDone,
   Event.start, Event.poll, Event.recDone (RecResult.returned (some "b")), Event.poll]

/-- One full turn ending with a cancel during `SPEAKING`, then a restart,
leaving the stale `__SPEECH_DONE__` still queued. -/
def staleDoneTrace : List Event :=
  [Event.start, Event.recDone (RecResult.returned (some "a")), Event.poll,
   Event.replyDone (ReplyResult.returned "r"), Event.poll,
   Event.cancel, Event.speechDone, Event.start]

/-- A turn whose reply generation raises. -/
def replyFailTrace : List Event :=
  [Event.start, Event.recDone (RecResult.returned (some "hi there")), Event.poll,
   Event.replyDone ReplyResult.raised, Event.poll]

/-- Extension of `gateTrace`-style cancellation races until two recording
threads are alive at once: after the stale sentinel forces `IDLE`, a
second `start` spawns a second recorder; the first recorder's transcript
is consumed (state `THINKING`), and the second recorder then posts while
the state is `THINKING`. -/
def crossStateTrace : List Event :=
  [Event.start, Event.recDone (RecResult.returned (some "a")), Event.poll,
   Event.replyDone (ReplyResult.returned "r1"), Event.poll, Event.cancel, Event.speechDone,
   Event.start, Event.poll, Event.start, Event.recDone (RecResult.returned (some "b")),
   Event.poll, Event.recDone (RecResult.returned (some "c"))]

/-- `crossStateTrace`, continued until a transcript and a reply are
pending in the two queues at the same time. -/
def doubleSpawnTrace : List Event :=
  [Event.start, Event.recDone (RecResult.returned (some "a")), Event.poll,
   Event.replyDone (ReplyResult.returned "r1"), Event.poll, Event.cancel, Event.speechDone,
   Event.start, Event.poll, Event.start, Event.recDone (RecResult.returned (some "b")),
   Event.poll, Event.recDone (RecResult.returned (some "c")),
   Event.replyDone (ReplyResult.returned "r2")]

/-- The state in which the orchestrator is stranded when the recording
thread's transcript comes back empty/absent without an exception: the
thread posts nothing, so no `poll` can ever leave `LISTENING`. -/
def stuckListening : Sys :=
  { state := AssistantState.listening, gate := true, conversation := [],
    speechQ := [], respQ := [], tasks := [], ttsStops := 0 }

lemma run_polls_stuckListening (n : Nat) :
    run stuckListening (List.replicate n Event.poll) = stuckListening := by
  induction n with
  | zero => rfl
  | succ k ih =>
    have h : run stuckListening (List.replicate (k + 1) Event.poll)
        = run (step stuckListening Event.poll) (List.replicate k Event.poll) := by
      simp [run, List.replicate_succ]
    rw [h]
    exact ih

/-- Claim C2 (code bug): the background task protocol requires every task
to post exactly one terminal message on every path, but
`record_and_transcribe` posts zero messages when
`listen_and_transcribe()` returns an empty/absent transcript without
raising; the exception path and the truthy path post exactly one, as do
the reply and speech tasks. -/
theorem recording_task_message_count :
    recPost (RecResult.returned none) = [] ∧
    recPost (RecResult.returned (some "hello")) = [some "hello"] ∧
    recPost RecResult.raised = [none] ∧
    (∀ r : ReplyResult, (replyPost r).length = 1) ∧
    speechPost.length = 1 := by
  refine ⟨rfl, by decide, rfl, fun r => ?_, rfl⟩
  cases r <;> rfl

/-- Claim C5 (code bug): when the transcript comes back empty/absent
without an exception the orchestrator does not return to `IDLE` silently
as the spec requires: the recording thread posts nothing, so the system
stays in `LISTENING` (gate still set, history unchanged) no matter how
many `poll` ticks follow; only the exception path (which posts `None`)
reaches `IDLE` silently with history unchanged and gate cleared. -/
theorem transcript_failure_paths :
    (∀ n : Nat,
      run init ([Event.start, Event.recDone (RecResult.returned none)]
        ++ List.replicate n Event.poll) = stuckListening) ∧
    run init [Event.start, Event.recDone RecResult.raised, Event.poll]
      = { state := AssistantState.idle, gate := false, conversation := [],
          speechQ := [], respQ := [], tasks := [], ttsStops := 0 } := by
  constructor
  · intro n
    have h1 : run (run init [Event.start, Event.recDone (RecResult.returned none)])
        (List.replicate n Event.poll) = stuckListening := by
      have h2 : run init [Event.start, Event.recDone (RecResult.returned none)]
          = stuckListening := by decide
      rw [h2]
      exact run_polls_stuckListening n
    simpa [run, List.foldl_append] using h1
  · decide

/-- Claim C6: after the append+trim cycle of `speak_response`, the
history length never exceeds 20, and the trimmed history is exactly a
suffix of the pre-trim history (FIFO drop from the front), so no retained
turn is older than a dropped one. -/
theorem history_append_trim_bounded_fifo :
    ∀ (conv : List Turn) (t : Turn),
      (appendTrim conv t).length ≤ 20 ∧
      List.IsSuffix (appendTrim conv t) (conv ++ [t]) ∧
      ∀ (σ : Sys) (text : String),
        (speak_response σ text).conversation
          = appendTrim σ.conversation ⟨Role.assistant, text⟩ := by
  intro conv t
  refine ⟨?_, ?_, fun σ text => rfl⟩
  · unfold appendTrim
    by_cases h : (conv ++ [t]).length > 20
    · rw [if_pos h]
      simp only [List.length_drop]
      omega
    · rw [if_neg h]
      omega
  · unfold appendTrim
    by_cases h : (conv ++ [t]).length > 20
    · rw [if_pos h]
      exact List.drop_suffix _ _
    · rw [if_neg h]

/-- Claim C9: calling `start_listening` while the state is not `IDLE`
leaves the whole orchestrator state (state, history, gate, queues,
threads) unchanged and spawns no task. -/
theorem start_noop_when_not_idle (σ : Sys) (h : σ.state ≠ AssistantState.idle) :
    step σ Event.start = σ := by
  simp [step, start_listening, h]

theorem start_noop_when_not_idle_witness :
    (run init [Event.start]).state ≠ AssistantState.idle ∧
    step (run init [Event.start]) Event.start = run init [Event.start] :=
  ⟨by decide, start_noop_when_not_idle _ (by decide)⟩

/-- Claim C10: `LLMClient.chat` is total at the orchestrator boundary:
whatever the availability flag, the message list and the HTTP outcome, it
returns a string and never propagates an exception (mock answer when the
backend is unavailable, fixed fallback sentence when the request raises),
so the `get_response` thread always posts exactly the string `chat`
returned and its own exception branch is never exercised by an LLM
failure. -/
theorem llm_chat_total_at_boundary :
    ∀ (messages : List Turn) (o : HttpOutcome) (pick : Nat) (timeStr : String),
      (∀ available : Bool, ∃ s : String,
          chat available messages o pick timeStr = Except.ok s ∧
          get_response_post (chat available messages o pick timeStr) = s) ∧
      chat false messages o pick timeStr
        = Except.ok (mock_response messages pick timeStr) ∧
      chat true messages HttpOutcome.raised pick timeStr = Except.ok chatFallback := by
  intro messages o pick timeStr
  refine ⟨fun available => ?_, by simp [chat], by simp [chat, chat_sync]⟩
  cases available with
  | false =>
    exact ⟨mock_response messages pick timeStr, by simp [chat],
      by simp [chat, get_response_post]⟩
  | true =>
    cases o with
    | raised =>
      exact ⟨chatFallback, by simp [chat, chat_sync],
        by simp [chat, chat_sync, get_response_post]⟩
    | ok status content =>
      by_cases h : status = 200
      · exact ⟨content.trim, by simp [chat, chat_sync, h],
          by simp [chat, chat_sync, h, get_response_post]⟩
      · exact ⟨chatFallback, by simp [chat, chat_sync, h],
          by simp [chat, chat_sync, h, get_response_post]⟩

/-- Claim C1 (counterexample): after a cancel-while-speaking followed by a
restart, draining the stale `__SPEECH_DONE__` forces `IDLE` and clears the
gate while the new recording thread is still alive; when its transcript is
then consumed the state becomes `THINKING` with the gate still false, so
`gate == (state != Idle)` fails after that `poll`. -/
theorem gate_invariant_counterexample :
    (run init gateTrace).state = AssistantState.thinking ∧
    (run init gateTrace).gate = false := by decide

/-- Claim C3 (counterexample): when reply generation raises, the apology
string is posted by the task itself as an ordinary reply and
`speak_response` appends it to the history as an `assistant` turn, so the
history does not end with only the user turn as the claim states. -/
theorem reply_failure_appends_assistant_turn :
    (run init replyFailTrace).state = AssistantState.speaking ∧
    (run init replyFailTrace).conversation
      = [⟨Role.user, "hi there"⟩, ⟨Role.assistant, taskApology⟩] := by decide

/-- Claim C4 (counterexample): a stale `__SPEECH_DONE__` that arrives
after a cancel and a restart is not a benign silent drop in the later
`LISTENING` state: draining it resets the state to `IDLE`. -/
theorem stale_speechdone_changes_state :
    (run init staleDoneTrace).state = AssistantState.listening ∧
    (step (run init staleDoneTrace) Event.poll).state = AssistantState.idle := by decide

/-- Claim C7 (counterexample): a `TranscriptReady` pending while the state
is `THINKING` (reachable through the cancellation race) is not treated as
a fatal internal-consistency error: the next `poll` silently processes it
as if valid, appending a user turn and staying in `THINKING`. -/
theorem transcript_while_thinking_processed :
    (run init crossStateTrace).state = AssistantState.thinking ∧
    (run init crossStateTrace).speechQ = [some "c"] ∧
    (step (run init crossStateTrace) Event.poll).state = AssistantState.thinking ∧
    (step (run init crossStateTrace) Event.poll).conversation
      = (run init crossStateTrace).conversation ++ [⟨Role.user, "c"⟩] := by decide

/-- Claim C8 (counterexample): with a transcript and a reply pending in
the same `poll` (reachable through the cancellation race), one call to
`update` spawns two background threads, not at most one. -/
theorem poll_double_spawn :
    (run init doubleSpawnTrace).tasks.length = 0 ∧
    (step (run init doubleSpawnTrace) Event.poll).tasks.length = 2 := by decide

/-!
Invariant machinery for the gate claim.  `IdleUngated` is the direction of
the gate invariant that survives cancellation and holds over every run;
`Inv` is the full inductive invariant of cancel-free runs, from which
`gate == (state != Idle)` follows.
-/

/-- Whenever the state is `IDLE`, the gate is clear. -/
def IdleUngated (σ : Sys) : Prop :=
  σ.state = AssistantState.idle → σ.gate = false

lemma idleUngated_set_state (σ : Sys) (s : AssistantState) :
    IdleUngated (set_state σ s) := by
  cases s <;> simp [IdleUngated, set_state]

lemma idleUngated_process (σ : Sys) (t : String) :
    IdleUngated (process_speech σ t) := by
  simp [IdleUngated, process_speech, set_state]

lemma idleUngated_speak (σ : Sys) (t : String) :
    IdleUngated (speak_response σ t) := by
  simp [IdleUngated, speak_response, set_state]

lemma idleUngated_dispatchSpeech (σ : Sys) (m : Option String) :
    IdleUngated (dispatchSpeechMsg σ m) := by
  cases m with
  | none => exact idleUngated_set_state _ _
  | some t =>
    by_cases h : t = ""
    · simpa [dispatchSpeechMsg, h] using idleUngated_set_state σ AssistantState.idle
    · simpa [dispatchSpeechMsg, h] using idleUngated_process σ t

lemma idleUngated_drainSpeech {σ : Sys} (h : IdleUngated σ) :
    IdleUngated (drainSpeech σ) := by
  cases hq : σ.speechQ with
  | nil => simpa [drainSpeech, hq] using h
  | cons m rest =>
    simpa [drainSpeech, hq] using
      idleUngated_dispatchSpeech { σ with speechQ := rest } m

lemma idleUngated_dispatchResponse (σ : Sys) (r : String) (h : IdleUngated σ) :
    IdleUngated (dispatchResponseMsg σ r) := by
  by_cases h1 : r = speechDoneSentinel
  · simpa [dispatchResponseMsg, h1] using idleUngated_set_state σ AssistantState.idle
  · by_cases h2 : σ.state = AssistantState.thinking
    · simpa [dispatchResponseMsg, h1, h2] using idleUngated_speak σ r
    · simpa [dispatchResponseMsg, h1, h2] using h

lemma idleUngated_drainResponse {σ : Sys} (h : IdleUngated σ) :
    IdleUngated (drainResponse σ) := by
  cases hq : σ.respQ with
  | nil => simpa [drainResponse, hq] using h
  | cons r rest =>
    have h' : IdleUngated { σ with respQ := rest } := h
    simpa [drainResponse, hq] using
      idleUngated_dispatchResponse { σ with respQ := rest } r h'

lemma idleUngated_step (σ : Sys) (e : Event) (h : IdleUngated σ) :
    IdleUngated (step σ e) := by
  cases e with
  | start =>
    by_cases hs : σ.state = AssistantState.idle
    · simpa [step, start_listening, hs] using
        idleUngated_set_state
          { σ with gate := true, tasks := TaskKind.recording :: σ.tasks }
          AssistantState.listening
    · simpa [step, start_listening, hs] using h
  | cancel =>
    by_cases hs : σ.state = AssistantState.speaking
    · simpa [step, hs, cancel_speech] using
        idleUngated_set_state { σ with ttsStops := σ.ttsStops + 1 } AssistantState.idle
    · simpa [step, hs] using h
  | poll => exact idleUngated_drainResponse (idleUngated_drainSpeech h)
  | recDone r =>
    by_cases hc : TaskKind.recording ∈ σ.tasks
    · have h' : IdleUngated { σ with tasks := σ.tasks.erase TaskKind.recording, speechQ := σ.speechQ ++ recPost r } := h
      simpa [step, hc] using h'
    · simpa [step, hc] using h
  | replyDone r =>
    by_cases hc : TaskKind.reply ∈ σ.tasks
    · have h' : IdleUngated { σ with tasks := σ.tasks.erase TaskKind.reply, respQ := σ.respQ ++ replyPost r } := h
      simpa [step, hc] using h'
    · simpa [step, hc] using h
  | speechDone =>
    by_cases hc : TaskKind.speech ∈ σ.tasks
    · have h' : IdleUngated { σ with tasks := σ.tasks.erase TaskKind.speech, respQ := σ.respQ ++ speechPost } := h
      simpa [step, hc] using h'
    · simpa [step, hc] using h

lemma idleUngated_run (es : List Event) (σ : Sys) (h : IdleUngated σ) :
    IdleUngated (run σ es) := by
  induction es generalizing σ with
  | nil => exact h
  | cons e rest ih => exact ih (step σ e) (idleUngated_step σ e h)

/-- Inductive invariant of cancel-free runs: the gate tracks the state,
and each state constrains which queues and threads can be non-empty. -/
def Inv (σ : Sys) : Prop :=
  match σ.state with
  | AssistantState.idle =>
      σ.gate = false ∧ σ.speechQ = [] ∧ σ.respQ = [] ∧ σ.tasks = []
  | AssistantState.listening =>
      σ.gate = true ∧ σ.respQ = [] ∧
        ((σ.tasks = [TaskKind.recording] ∧ σ.speechQ = []) ∨
         (σ.tasks = [] ∧ (σ.speechQ = [] ∨ ∃ m, σ.speechQ = [m])))
  | AssistantState.thinking =>
      σ.gate = true ∧ σ.speechQ = [] ∧
        ((σ.tasks = [TaskKind.reply] ∧ σ.respQ = []) ∨
         (σ.tasks = [] ∧ (σ.respQ = [] ∨ ∃ r, σ.respQ = [r])))
  | AssistantState.speaking =>
      σ.gate = true ∧ σ.speechQ = [] ∧
        ((σ.tasks = [TaskKind.speech] ∧ σ.respQ = []) ∨
         (σ.tasks = [] ∧ σ.respQ = [speechDoneSentinel]))

lemma recPost_shape (r : RecResult) : recPost r = [] ∨ ∃ m, recPost r = [m] := by
  cases r with
  | raised => exact Or.inr ⟨none, rfl⟩
  | returned t =>
    cases t with
    | none => exact Or.inl rfl
    | some s =>
      by_cases h : s = ""
      · exact Or.inl (by simp [recPost, h])
      · exact Or.inr ⟨some s, by simp [recPost, h]⟩

lemma replyPost_shape (r : ReplyResult) : ∃ x, replyPost r = [x] := by
  cases r with
  | returned s => exact ⟨s, rfl⟩
  | raised => exact ⟨taskApology, rfl⟩

lemma inv_init : Inv init := ⟨rfl, rfl, rfl, rfl⟩

lemma inv_step (σ : Sys) (e : Event) (hne : e ≠ Event.cancel) (h : Inv σ) :
    Inv (step σ e) := by
  obtain ⟨st, g, conv, sq, rq, tk, ts⟩ := σ
  cases e with
  | cancel => exact absurd rfl hne
  | start =>
    cases st with
    | idle =>
      obtain ⟨hg, hsq, hrq, htk⟩ := h
      subst hg; subst hsq; subst hrq; subst htk
      exact ⟨rfl, rfl, Or.inl ⟨rfl, rfl⟩⟩
    | listening => exact h
    | thinking => exact h
    | speaking => exact h
  | recDone r =>
    cases st with
    | idle =>
      obtain ⟨hg, hsq, hrq, htk⟩ := h
      subst hg; subst hsq; subst hrq; subst htk
      exact ⟨rfl, rfl, rfl, rfl⟩
    | listening =>
      obtain ⟨hg, hrq, hcase⟩ := h
      subst hg; subst hrq
      rcases hcase with ⟨htk, hsq⟩ | ⟨htk, hsq⟩
      · subst htk; subst hsq
        exact ⟨rfl, rfl, Or.inr ⟨rfl, recPost_shape r⟩⟩
      · subst htk
        rcases hsq with hsq | ⟨m, hsq⟩
        · subst hsq
          exact ⟨rfl, rfl, Or.inr ⟨rfl, Or.inl rfl⟩⟩
        · subst hsq
          exact ⟨rfl, rfl, Or.inr ⟨rfl, Or.inr ⟨m, rfl⟩⟩⟩
    | thinking =>
      obtain ⟨hg, hsq, hcase⟩ := h
      subst hg; subst hsq
      rcases hcase with ⟨htk, hrq⟩ | ⟨htk, hrq⟩
      · subst htk; subst hrq
        exact ⟨rfl, rfl, Or.inl ⟨rfl, rfl⟩⟩
      · subst htk
        rcases hrq with hrq | ⟨x, hrq⟩
        · subst hrq
          exact ⟨rfl, rfl, Or.inr ⟨rfl, Or.inl rfl⟩⟩
        · subst hrq
          exact ⟨rfl, rfl, Or.inr ⟨rfl, Or.inr ⟨x, rfl⟩⟩⟩
    | speaking =>
      obtain ⟨hg, hsq, hcase⟩ := h
      subst hg; subst hsq
      rcases hcase with ⟨htk, hrq⟩ | ⟨htk, hrq⟩
      · subst htk; subst hrq
        exact ⟨rfl, rfl, Or.inl ⟨rfl, rfl⟩⟩
      · subst htk; subst hrq
        exact ⟨rfl, rfl, Or.inr ⟨rfl, rfl⟩⟩
  | replyDone r =>
    cases st with
    | idle =>
      obtain ⟨hg, hsq, hrq, htk⟩ := h
      subst hg; subst hsq; subst hrq; subst htk
      exact ⟨rfl, rfl, rfl, rfl⟩
    | listening =>
      obtain ⟨hg, hrq, hcase⟩ := h
      subst hg; subst hrq
      rcases hcase with ⟨htk, hsq⟩ | ⟨htk, hsq⟩
      · subst htk; subst hsq
        exact ⟨rfl, rfl, Or.inl ⟨rfl, rfl⟩⟩
      · subst htk
        rcases hsq with hsq | ⟨m, hsq⟩
        · subst hsq
          exact ⟨rfl, rfl, Or.inr ⟨rfl, Or.inl rfl⟩⟩
        · subst hsq
          exact ⟨rfl, rfl, Or.inr ⟨rfl, Or.inr ⟨m, rfl⟩⟩⟩
    | thinking =>
      obtain ⟨hg, hsq, hcase⟩ := h
      subst hg; subst hsq
      rcases hcase with ⟨htk, hrq⟩ | ⟨htk, hrq⟩
      · subst htk; subst hrq
        exact ⟨rfl, rfl, Or.inr ⟨rfl, Or.inr (replyPost_shape r)⟩⟩
      · subst htk
        rcases hrq with hrq | ⟨x, hrq⟩
        · subst hrq
          exact ⟨rfl, rfl, Or.inr ⟨rfl, Or.inl rfl⟩⟩
        · subst hrq
          exact ⟨rfl, rfl, Or.inr ⟨rfl, Or.inr ⟨x, rfl⟩⟩⟩
    | speaking =>
      obtain ⟨hg, hsq, hcase⟩ := h
      subst hg; subst hsq
      rcases hcase with ⟨htk, hrq⟩ | ⟨htk, hrq⟩
      · subst htk; subst hrq
        exact ⟨rfl, rfl, Or.inl ⟨rfl, rfl⟩⟩
      · subst htk; subst hrq
        exact ⟨rfl, rfl, Or.inr ⟨rfl, rfl⟩⟩
  | speechDone =>
    cases st with
    | idle =>
      obtain ⟨hg, hsq, hrq, htk⟩ := h
      subst hg; subst hsq; subst hrq; subst htk
      exact ⟨rfl, rfl, rfl, rfl⟩
    | listening =>
      obtain ⟨hg, hrq, hcase⟩ := h
      subst hg; subst hrq
      rcases hcase with ⟨htk, hsq⟩ | ⟨htk, hsq⟩
      · subst htk; subst hsq
        exact ⟨rfl, rfl, Or.inl ⟨rfl, rfl⟩⟩
      · subst htk
        rcases hsq with hsq | ⟨m, hsq⟩
        · subst hsq
          exact ⟨rfl, rfl, Or.inr ⟨rfl, Or.inl rfl⟩⟩
        · subst hsq
          exact ⟨rfl, rfl, Or.inr ⟨rfl, Or.inr ⟨m, rfl⟩⟩⟩
    | thinking =>
      obtain ⟨hg, hsq, hcase⟩ := h
      subst hg; subst hsq
      rcases hcase with ⟨htk, hrq⟩ | ⟨htk, hrq⟩
      · subst htk; subst hrq
        exact ⟨rfl, rfl, Or.inl ⟨rfl, rfl⟩⟩
      · subst htk
        rcases hrq with hrq | ⟨x, hrq⟩
        · subst hrq
          exact ⟨rfl, rfl, Or.inr ⟨rfl, Or.inl rfl⟩⟩
        · subst hrq
          exact ⟨rfl, rfl, Or.inr ⟨rfl, Or.inr ⟨x, rfl⟩⟩⟩
    | speaking =>
      obtain ⟨hg, hsq, hcase⟩ := h
      subst hg; subst hsq
      rcases hcase with ⟨htk, hrq⟩ | ⟨htk, hrq⟩
      · subst htk; subst hrq
        exact ⟨rfl, rfl, Or.inr ⟨rfl, rfl⟩⟩
      · subst htk; subst hrq
        exact ⟨rfl, rfl, Or.inr ⟨rfl, rfl⟩⟩
  | poll =>
    cases st with
    | idle =>
      obtain ⟨hg, hsq, hrq, htk⟩ := h
      subst hg; subst hsq; subst hrq; subst htk
      exact ⟨rfl, rfl, rfl, rfl⟩
    | listening =>
      obtain ⟨hg, hrq, hcase⟩ := h
      subst hg; subst hrq
      rcases hcase with ⟨htk, hsq⟩ | ⟨htk, hsq⟩
      · subst htk; subst hsq
        exact ⟨rfl, rfl, Or.inl ⟨rfl, rfl⟩⟩
      · subst htk
        rcases hsq with hsq | ⟨m, hsq⟩
        · subst hsq
          exact ⟨rfl, rfl, Or.inr ⟨rfl, Or.inl rfl⟩⟩
        · subst hsq
          cases m with
          | none => exact ⟨rfl, rfl, rfl, rfl⟩
          | some t =>
            by_cases ht : t = ""
            · subst ht
              exact ⟨rfl, rfl, rfl, rfl⟩
            · have hstep :
                  step (⟨AssistantState.listening, true, conv, [some t], [], [], ts⟩ : Sys) Event.poll
                    = ⟨AssistantState.thinking, true, conv ++ [⟨Role.user, t⟩], [], [], [TaskKind.reply], ts⟩ := by
                simp [step, update, drainSpeech, dispatchSpeechMsg, ht, drainResponse,
                  process_speech, set_state]
              rw [hstep]
              exact ⟨rfl, rfl, Or.inl ⟨rfl, rfl⟩⟩
    | thinking =>
      obtain ⟨hg, hsq, hcase⟩ := h
      subst hg; subst hsq
      rcases hcase with ⟨htk, hrq⟩ | ⟨htk, hrq⟩
      · subst htk; subst hrq
        exact ⟨rfl, rfl, Or.inl ⟨rfl, rfl⟩⟩
      · subst htk
        rcases hrq with hrq | ⟨x, hrq⟩
        · subst hrq
          exact ⟨rfl, rfl, Or.inr ⟨rfl, Or.inl rfl⟩⟩
        · subst hrq
          by_cases hx : x = speechDoneSentinel
          · subst hx
            exact ⟨rfl, rfl, rfl, rfl⟩
          · have hstep :
                step (⟨AssistantState.thinking, true, conv, [], [x], [], ts⟩ : Sys) Event.poll
                  = ⟨AssistantState.speaking, true, appendTrim conv ⟨Role.assistant, x⟩, [], [], [TaskKind.speech], ts⟩ := by
              simp [step, update, drainSpeech, drainResponse, dispatchResponseMsg, hx,
                speak_response, set_state]
            rw [hstep]
            exact ⟨rfl, rfl, Or.inl ⟨rfl, rfl⟩⟩
    | speaking =>
      obtain ⟨hg, hsq, hcase⟩ := h
      subst hg; subst hsq
      rcases hcase with ⟨htk, hrq⟩ | ⟨htk, hrq⟩
      · subst htk; subst hrq
        exact ⟨rfl, rfl, Or.inl ⟨rfl, rfl⟩⟩
      · subst htk; subst hrq
        exact ⟨rfl, rfl, rfl, rfl⟩

lemma inv_run_nc (es : List Event) :
    ∀ σ : Sys, Inv σ → Event.cancel ∉ es → Inv (run σ es) := by
  induction es with
  | nil => exact fun _ h _ => h
  | cons e rest ih =>
    intro σ h hnc
    rw [List.mem_cons, not_or] at hnc
    exact ih (step σ e) (inv_step σ e (fun he => hnc.1 he.symm) h) hnc.2

lemma inv_gate (σ : Sys) (h : Inv σ) :
    (σ.gate = true ↔ σ.state ≠ AssistantState.idle) := by
  obtain ⟨st, g, conv, sq, rq, tk, ts⟩ := σ
  cases st with
  | idle => obtain ⟨hg, -, -, -⟩ := h; subst hg; simp
  | listening => obtain ⟨hg, -⟩ := h; subst hg; simp
  | thinking => obtain ⟨hg, -⟩ := h; subst hg; simp
  | speaking => obtain ⟨hg, -⟩ := h; subst hg; simp

/-- Claim C1 (amended): after every public call, `state == Idle` implies
the gate is clear, over all runs; and on every run containing no cancel,
the full invariant `gate == (state != Idle)` holds after every call.  The
full invariant does not survive cancellation: a stale `__SPEECH_DONE__`
draining while a new interaction is in flight resets the state to `IDLE`
and clears the gate, after which the next transcript reaches `THINKING`
with the gate still false (see the counterexample). -/
theorem gate_tracks_state_amended :
    (∀ es : List Event,
        (run init es).state = AssistantState.idle → (run init es).gate = false) ∧
    (∀ es : List Event, Event.cancel ∉ es →
        ((run init es).gate = true ↔ (run init es).state ≠ AssistantState.idle)) :=
  ⟨fun es => idleUngated_run es init (fun _ => rfl),
   fun es hnc => inv_gate (run init es) (inv_run_nc es init inv_init hnc)⟩

theorem gate_tracks_state_amended_witness :
    ((run init [Event.start, Event.poll]).gate = true
      ↔ (run init [Event.start, Event.poll]).state ≠ AssistantState.idle) ∧
    (run init []).gate = false :=
  ⟨gate_tracks_state_amended.2 [Event.start, Event.poll] (by decide),
   gate_tracks_state_amended.1 [] rfl⟩

/-- Claim C3 (amended): when reply generation raises, the reply task
itself posts the fixed apology string as an ordinary reply; the
orchestrator then transitions from `THINKING` to `SPEAKING`, spawns the
speech task, and the conversation history receives an `assistant` turn
carrying the apology text (appended after the user turn and trimmed),
with the gate unchanged. -/
theorem reply_failure_amended :
    ∀ (g : Bool) (conv : List Turn) (ts : Nat),
      run (⟨AssistantState.thinking, g, conv, [], [], [TaskKind.reply], ts⟩ : Sys)
          [Event.replyDone ReplyResult.raised, Event.poll]
        = ⟨AssistantState.speaking, g, appendTrim conv ⟨Role.assistant, taskApology⟩,
           [], [], [TaskKind.speech], ts⟩ := by
  intro g conv ts
  have hne : taskApology ≠ speechDoneSentinel := by decide
  simp [run, step, update, drainSpeech, drainResponse, dispatchResponseMsg, hne,
    replyPost, speak_response, set_state]

/-- Claim C4 (amended): cancelling while in `SPEAKING` transitions to
`IDLE` synchronously (the speech thread is still alive) and invokes
`tts.stop()` exactly once, leaving history, queues and threads untouched;
a `__SPEECH_DONE__` that then arrives while the orchestrator is `IDLE` is
a benign silent drop (only the sentinel is popped); but if a new
interaction has already started, the stale sentinel is not benign: it
resets the state from `LISTENING` to `IDLE` and clears the gate (history
still unchanged). -/
theorem cancel_and_stale_speechdone_amended :
    (∀ (g : Bool) (conv : List Turn) (sq : List (Option String)) (rq : List String)
        (tk : List TaskKind) (ts : Nat),
      step (⟨AssistantState.speaking, g, conv, sq, rq, tk, ts⟩ : Sys) Event.cancel
        = ⟨AssistantState.idle, false, conv, sq, rq, tk, ts + 1⟩) ∧
    (∀ (conv : List Turn) (tk : List TaskKind) (ts : Nat) (rest : List String),
      update (⟨AssistantState.idle, false, conv, [], speechDoneSentinel :: rest, tk, ts⟩ : Sys)
        = ⟨AssistantState.idle, false, conv, [], rest, tk, ts⟩) ∧
    (∀ (g : Bool) (conv : List Turn) (tk : List TaskKind) (ts : Nat) (rest : List String),
      update (⟨AssistantState.listening, g, conv, [], speechDoneSentinel :: rest, tk, ts⟩ : Sys)
        = ⟨AssistantState.idle, false, conv, [], rest, tk, ts⟩) :=
  ⟨fun _ _ _ _ _ _ => rfl, fun _ _ _ _ => rfl, fun _ _ _ _ _ => rfl⟩

/-- Claim C7 (amended): the code detects no cross-state inconsistency: a
truthy transcript message is processed exactly as in `LISTENING` whatever
the current state (user turn appended, state set to `THINKING`, reply
thread spawned), and a non-sentinel reply message arriving while the
state is not `THINKING` is silently dropped; neither case is a fatal
error. -/
theorem inconsistent_message_handling_amended :
    (∀ (st : AssistantState) (g : Bool) (conv : List Turn) (t : String)
        (rest : List (Option String)) (tk : List TaskKind) (ts : Nat),
      t ≠ "" →
      update (⟨st, g, conv, some t :: rest, [], tk, ts⟩ : Sys)
        = process_speech (⟨st, g, conv, rest, [], tk, ts⟩ : Sys) t) ∧
    (∀ (st : AssistantState) (g : Bool) (conv : List Turn) (r : String)
        (rest : List String) (tk : List TaskKind) (ts : Nat),
      r ≠ speechDoneSentinel → st ≠ AssistantState.thinking →
      update (⟨st, g, conv, [], r :: rest, tk, ts⟩ : Sys)
        = ⟨st, g, conv, [], rest, tk, ts⟩) := by
  constructor
  · intro st g conv t rest tk ts ht
    simp [update, drainSpeech, dispatchSpeechMsg, ht, drainResponse, process_speech, set_state]
  · intro st g conv r rest tk ts hr hst
    simp [update, drainSpeech, drainResponse, dispatchResponseMsg, hr, hst]

theorem inconsistent_message_handling_amended_witness :
    update (⟨AssistantState.thinking, true, [], [some "x"], [], [], 0⟩ : Sys)
      = process_speech (⟨AssistantState.thinking, true, [], [], [], [], 0⟩ : Sys) "x" ∧
    update (⟨AssistantState.speaking, true, [], [], ["y"], [], 0⟩ : Sys)
      = ⟨AssistantState.speaking, true, [], [], [], [], 0⟩ :=
  ⟨inconsistent_message_handling_amended.1 _ _ _ "x" _ _ _ (by decide),
   inconsistent_message_handling_amended.2 _ _ _ "y" _ _ _ (by decide) (by decide)⟩

lemma dispatchSpeech_speechQ (σ : Sys) (m : Option String) :
    (dispatchSpeechMsg σ m).speechQ = σ.speechQ := by
  cases m with
  | none => rfl
  | some t =>
    by_cases h : t = "" <;> simp [dispatchSpeechMsg, h, process_speech, set_state]

lemma dispatchSpeech_respQ (σ : Sys) (m : Option String) :
    (dispatchSpeechMsg σ m).respQ = σ.respQ := by
  cases m with
  | none => rfl
  | some t =>
    by_cases h : t = "" <;> simp [dispatchSpeechMsg, h, process_speech, set_state]

lemma dispatchSpeech_tasks_le (σ : Sys) (m : Option String) :
    (dispatchSpeechMsg σ m).tasks.length ≤ σ.tasks.length + 1 := by
  cases m with
  | none => exact Nat.le_succ _
  | some t =>
    by_cases h : t = ""
    · simp [dispatchSpeechMsg, h, set_state]
    · simp [dispatchSpeechMsg, h, process_speech, set_state]

lemma drainSpeech_speechQ (σ : Sys) : (drainSpeech σ).speechQ = σ.speechQ.tail := by
  cases hq : σ.speechQ with
  | nil => simp [drainSpeech, hq]
  | cons m rest => simp [drainSpeech, hq, dispatchSpeech_speechQ]

lemma drainSpeech_respQ (σ : Sys) : (drainSpeech σ).respQ = σ.respQ := by
  cases hq : σ.speechQ with
  | nil => simp [drainSpeech, hq]
  | cons m rest => simp [drainSpeech, hq, dispatchSpeech_respQ]

lemma drainSpeech_tasks_le (σ : Sys) :
    (drainSpeech σ).tasks.length ≤ σ.tasks.length + 1 := by
  cases hq : σ.speechQ with
  | nil => simp [drainSpeech, hq]
  | cons m rest =>
    simpa [drainSpeech, hq] using
      dispatchSpeech_tasks_le { σ with speechQ := rest } m

lemma dispatchResponse_respQ (σ : Sys) (r : String) :
    (dispatchResponseMsg σ r).respQ = σ.respQ := by
  by_cases h1 : r = speechDoneSentinel
  · simp [dispatchResponseMsg, h1, set_state]
  · by_cases h2 : σ.state = AssistantState.thinking <;>
      simp [dispatchResponseMsg, h1, h2, speak_response, set_state]

lemma dispatchResponse_speechQ (σ : Sys) (r : String) :
    (dispatchResponseMsg σ r).speechQ = σ.speechQ := by
  by_cases h1 : r = speechDoneSentinel
  · simp [dispatchResponseMsg, h1, set_state]
  · by_cases h2 : σ.state = AssistantState.thinking <;>
      simp [dispatchResponseMsg, h1, h2, speak_response, set_state]

lemma dispatchResponse_tasks_le (σ : Sys) (r : String) :
    (dispatchResponseMsg σ r).tasks.length ≤ σ.tasks.length + 1 := by
  by_cases h1 : r = speechDoneSentinel
  · simp [dispatchResponseMsg, h1, set_state]
  · by_cases h2 : σ.state = AssistantState.thinking
    · simp [dispatchResponseMsg, h1, h2, speak_response, set_state]
    · simp [dispatchResponseMsg, h1, h2]

lemma drainResponse_respQ (σ : Sys) : (drainResponse σ).respQ = σ.respQ.tail := by
  cases hq : σ.respQ with
  | nil => simp [drainResponse, hq]
  | cons r rest => simp [drainResponse, hq, dispatchResponse_respQ]

lemma drainResponse_speechQ (σ : Sys) : (drainResponse σ).speechQ = σ.speechQ := by
  cases hq : σ.respQ with
  | nil => simp [drainResponse, hq]
  | cons r rest => simp [drainResponse, hq, dispatchResponse_speechQ]

lemma drainResponse_tasks_le (σ : Sys) :
    (drainResponse σ).tasks.length ≤ σ.tasks.length + 1 := by
  cases hq : σ.respQ with
  | nil => simp [drainResponse, hq]
  | cons r rest =>
    simpa [drainResponse, hq] using
      dispatchResponse_tasks_le { σ with respQ := rest } r

/-- Claim C8 (amended): one `update` call drains at most one message from
each queue (exactly the head of each), processes a pending transcript
before a pending reply (when both are present the user turn is appended
before the assistant turn), and spawns at most one background thread per
message drained — hence at most two per call, not at most one (two is
reached in the cancellation race, see the counterexample). -/
theorem poll_drain_spawn_amended :
    (∀ σ : Sys,
      (update σ).speechQ = σ.speechQ.tail ∧
      (update σ).respQ = σ.respQ.tail ∧
      (update σ).tasks.length ≤ σ.tasks.length + 2) ∧
    (∀ (st : AssistantState) (g : Bool) (conv : List Turn) (t r : String)
        (rs1 : List (Option String)) (rs2 : List String) (tk : List TaskKind) (ts : Nat),
      t ≠ "" → r ≠ speechDoneSentinel →
      (update (⟨st, g, conv, some t :: rs1, r :: rs2, tk, ts⟩ : Sys)).conversation
        = appendTrim (conv ++ [⟨Role.user, t⟩]) ⟨Role.assistant, r⟩) := by
  constructor
  · intro σ
    refine ⟨?_, ?_, ?_⟩
    · rw [update, drainResponse_speechQ, drainSpeech_speechQ]
    · rw [update, drainResponse_respQ, drainSpeech_respQ]
    · have h1 := drainResponse_tasks_le (drainSpeech σ)
      have h2 := drainSpeech_tasks_le σ
      rw [update]
      omega
  · intro st g conv t r rs1 rs2 tk ts ht hr
    have h1 : drainSpeech (⟨st, g, conv, some t :: rs1, r :: rs2, tk, ts⟩ : Sys)
        = process_speech (⟨st, g, conv, rs1, r :: rs2, tk, ts⟩ : Sys) t := by
      simp [drainSpeech, dispatchSpeechMsg, ht]
    rw [update, h1]
    simp [process_speech, set_state, drainResponse, dispatchResponseMsg, hr, speak_response]

theorem poll_drain_spawn_amended_witness :
    (update (⟨AssistantState.idle, false, [], [some "u"], ["v"], [], 0⟩ : Sys)).conversation
      = appendTrim ([] ++ [⟨Role.user, "u"⟩]) ⟨Role.assistant, "v"⟩ ∧
    (update (⟨AssistantState.idle, false, [], [], [], [], 0⟩ : Sys)).speechQ
      = ([] : List (Option String)).tail :=
  ⟨poll_drain_spawn_amended.2 _ _ _ "u" "v" _ _ _ _ (by decide) (by decide),
   (poll_drain_spawn_amended.1 _).1⟩

end PiAssistant
